import Mathlib

/-!
Verification of the drifter schema-tracking library.

This file gives a shallow embedding, in Lean, of the parts of the drifter
repository that the specification talks about:

* `core.py` — the frozen dataclass Field hierarchy (`CoreField` below), its
  serializer (`asdict`, here `serializeField`) and its deserializer
  `field_from_dict`.
* `schema.py` — the TypedDict field model carrying `type_hash` (`SField`
  below), the hash-based `are_fields_equal`, and the added/removed/changed
  diff block of its `register`.
* `__init__.py` — the package-level registrar: `ColumnChange`,
  `SchemaChange`, `load_history`, `compare_schemas` and `register`, modelled
  as an explicit state-passing function over the content of the per-source
  history file.
* `polars.py` — the Polars-dtype-to-Field adapter (`map_polars_dtype`).

Machine values produced by `json.loads` / consumed by `json.dumps` are
modelled by the mutual inductive `PyVal`/`PyList`/`PyDict`.  Polars dtypes
are modelled by `PDType`.  A Polars DataFrame is modelled by its schema (an
ordered association list of column name and dtype): none of the registrar
code inspects row values when deciding control flow.
-/

set_option maxHeartbeats 1000000
set_option maxRecDepth 4096

/-! ## Python values (the image of `json.loads` / domain of `json.dumps`) -/

mutual

/-- A Python value as produced by `json.loads` or `dataclasses.asdict`:
`None`, booleans, integers, strings, lists and string-keyed dicts. -/
inductive PyVal where
  | vNone : PyVal
  | vBool (b : Bool) : PyVal
  | vInt (n : Int) : PyVal
  | vStr (s : String) : PyVal
  | vList (xs : PyList) : PyVal
  | vDict (d : PyDict) : PyVal
deriving DecidableEq

/-- A Python list of `PyVal`. -/
inductive PyList where
  | nil : PyList
  | cons (v : PyVal) (rest : PyList) : PyList
deriving DecidableEq

/-- A Python dict with string keys, in insertion order (CPython dicts keep
insertion order and never hold duplicate keys). -/
inductive PyDict where
  | nil : PyDict
  | cons (k : String) (v : PyVal) (rest : PyDict) : PyDict
deriving DecidableEq

end

namespace PyDict

/-- Dict key lookup, `d[k]` / `d.get(k)`: first binding wins. -/
def lookup : PyDict → String → Option PyVal
  | .nil, _ => none
  | .cons k v rest, key => if k = key then some v else lookup rest key

/-- The keys of a dict, in order. -/
def keys : PyDict → List String
  | .nil => []
  | .cons k _ rest => k :: keys rest

end PyDict

namespace PyList

/-- List append, `xs + [v]` / `xs.append(v)`. -/
def push : PyList → PyVal → PyList
  | .nil, v => .cons v .nil
  | .cons x rest, v => .cons x (push rest v)

/-- The last element of a Python list, if any (`xs[-1]`). -/
def last : PyList → Option PyVal
  | .nil => none
  | .cons x .nil => some x
  | .cons _ (.cons y rest) => last (.cons y rest)

/-- Length of a Python list. -/
def length : PyList → Nat
  | .nil => 0
  | .cons _ rest => length rest + 1

end PyList

mutual

/-- Size measure on `PyVal`, used as fuel bound for recursive deserializers. -/
def pyValSize : PyVal → Nat
  | .vNone | .vBool _ | .vInt _ | .vStr _ => 1
  | .vList xs => pyListSize xs + 1
  | .vDict d => pyDictSize d + 1

/-- Size measure on `PyList`. -/
def pyListSize : PyList → Nat
  | .nil => 1
  | .cons v rest => pyValSize v + pyListSize rest + 1

/-- Size measure on `PyDict`. -/
def pyDictSize : PyDict → Nat
  | .nil => 1
  | .cons _ v rest => pyValSize v + pyDictSize rest + 1

end

/-! ## Polars dtypes

`PDType` models the Polars runtime dtype objects that flow through the
repository: the numeric, temporal, string-like and nested dtypes named in
`schema.py` and `polars.py`.  Structural equality of two dtype values models
the `==`/`!=` of Polars `DataType` objects (Polars compares dtypes
structurally, parameters included). -/

/-- Time unit of a Polars `Datetime`/`Duration` dtype. -/
inductive PTimeUnit where
  | ns | us | ms
deriving DecidableEq, Repr

mutual

/-- A Polars dtype object. -/
inductive PDType where
  | int8 | int16 | int32 | int64
  | uint8 | uint16 | uint32 | uint64
  | float32 | float64
  | boolean | string | binary | null
  | date | time
  | datetime (timeUnit : PTimeUnit) (timeZone : Option String)
  | duration (timeUnit : PTimeUnit)
  | categorical
  | object | unknown
  | enum (categories : List String)
  | list (inner : PDType)
  | array (inner : PDType) (width : Nat)
  | struct (fields : PStructFields)
deriving DecidableEq

/-- The ordered field list of a Polars `Struct` dtype. -/
inductive PStructFields where
  | nil : PStructFields
  | cons (name : String) (dtype : PDType) (rest : PStructFields) : PStructFields
deriving DecidableEq

end

mutual

/-- Structural equality of Polars dtypes (`dtype1 == dtype2`). -/
def pdBeq : PDType → PDType → Bool
  | .int8, .int8 => true
  | .int16, .int16 => true
  | .int32, .int32 => true
  | .int64, .int64 => true
  | .uint8, .uint8 => true
  | .uint16, .uint16 => true
  | .uint32, .uint32 => true
  | .uint64, .uint64 => true
  | .float32, .float32 => true
  | .float64, .float64 => true
  | .boolean, .boolean => true
  | .string, .string => true
  | .binary, .binary => true
  | .null, .null => true
  | .date, .date => true
  | .time, .time => true
  | .datetime u z, .datetime u2 z2 => u = u2 && z = z2
  | .duration u, .duration u2 => u = u2
  | .categorical, .categorical => true
  | .object, .object => true
  | .unknown, .unknown => true
  | .enum cs, .enum cs2 => cs = cs2
  | .list a, .list b => pdBeq a b
  | .array a m, .array b n => pdBeq a b && m = n
  | .struct fs, .struct gs => pdFieldsBeq fs gs
  | _, _ => false

/-- Structural equality of Polars struct field lists (name and dtype,
in order: Polars struct equality is order-sensitive). -/
def pdFieldsBeq : PStructFields → PStructFields → Bool
  | .nil, .nil => true
  | .cons n t rest, .cons n2 t2 rest2 => n = n2 && pdBeq t t2 && pdFieldsBeq rest rest2
  | _, _ => false

end

/-! ## Python runtime errors

`PyErr` models the exceptions the embedded code can raise.  `fuelOut` is an
artifact of the fuel-based recursion used for deserializers; lemmas below
show it is never returned when the fuel exceeds the input size. -/

/-- Exceptions raised by the embedded Python code. -/
inductive PyErr where
  | keyError (k : String)
  | typeError
  | attributeError
  | indexError
  | unknownFieldType (tag : PyVal)
  | jsonDecodeError
  | deserializeError
  | fuelOut
deriving DecidableEq

/-! ## The Polars DataFrame codec

`drifter/__init__.py` persists `base64.b64encode(df.serialize())` and reads
it back with `pl.DataFrame.deserialize` + `base64.b64decode`.  Polars is an
external collaborator (spec section 1), so its IPC codec is modelled here: an
injective, executable rendering of a DataFrame schema into a string, with a
partial inverse that fails on strings outside the image (modelling
`binascii.Error` / Polars deserialization failure).  Only the schema is
encoded: no registrar control flow ever depends on row values. -/

/-- A Polars DataFrame, modelled by its schema: an ordered association list
from column name to dtype (a `pl.Schema` never holds duplicate names). -/
abbrev PolarsSchema : Type := List (String × PDType)

/-- Dict-style lookup into a DataFrame schema (`df.schema[name]`). -/
def schemaLookup : PolarsSchema → String → Option PDType
  | [], _ => none
  | (n, d) :: rest, key => if n = key then some d else schemaLookup rest key

/-- Token stream of a string: its length followed by its character codes. -/
def tokensOfString (s : String) : List Nat :=
  s.length :: s.data.map Char.toNat

/-- Time-unit token for the modelled codec. -/
def tokenOfUnit : PTimeUnit → Nat
  | .ns => 0
  | .us => 1
  | .ms => 2

mutual

/-- Token stream of a dtype, for the modelled DataFrame codec. -/
def tokensOfPDType : PDType → List Nat
  | .int8 => [0]
  | .int16 => [1]
  | .int32 => [2]
  | .int64 => [3]
  | .uint8 => [4]
  | .uint16 => [5]
  | .uint32 => [6]
  | .uint64 => [7]
  | .float32 => [8]
  | .float64 => [9]
  | .boolean => [10]
  | .string => [11]
  | .binary => [12]
  | .null => [13]
  | .date => [14]
  | .time => [15]
  | .categorical => [16]
  | .object => [23]
  | .unknown => [24]
  | .duration u => [17, tokenOfUnit u]
  | .datetime u none => [18, tokenOfUnit u, 0]
  | .datetime u (some z) => [18, tokenOfUnit u, 1] ++ tokensOfString z
  | .enum cs => [19, cs.length] ++ cs.flatMap tokensOfString
  | .list t => 20 :: tokensOfPDType t
  | .array t w => 21 :: w :: tokensOfPDType t
  | .struct fs => 22 :: countPFields fs :: tokensOfPFields fs

/-- Token stream of a struct field list. -/
def tokensOfPFields : PStructFields → List Nat
  | .nil => []
  | .cons n t rest => tokensOfString n ++ tokensOfPDType t ++ tokensOfPFields rest

/-- Number of fields of a struct field list. -/
def countPFields : PStructFields → Nat
  | .nil => 0
  | .cons _ _ rest => countPFields rest + 1

end

/-- Render a token as a unary run of a-characters closed by one b. -/
def unaryChunk (n : Nat) : List Char :=
  List.replicate n 'a' ++ ['b']

/-- Render a token stream as characters. -/
def encodeTokens (ts : List Nat) : List Char :=
  ts.flatMap unaryChunk

/-- The modelled `base64.b64encode(df.serialize()).decode("ascii")`. -/
def encodeDf (s : PolarsSchema) : String :=
  String.mk (encodeTokens (s.length :: s.flatMap (fun e => tokensOfString e.1 ++ tokensOfPDType e.2)))

/-- Read one unary-coded token. -/
def readToken : List Char → Option (Nat × List Char)
  | [] => none
  | c :: rest =>
    if c = 'b' then some (0, rest)
    else if c = 'a' then
      match readToken rest with
      | some (n, r) => some (n + 1, r)
      | none => none
    else none

/-- Read `k` unary-coded tokens. -/
def readTokens (k : Nat) (cs : List Char) : Option (List Nat × List Char) :=
  match k with
  | 0 => some ([], cs)
  | k + 1 =>
    match readToken cs with
    | some (n, rest) =>
      match readTokens k rest with
      | some (ns, r) => some (n :: ns, r)
      | none => none
    | none => none

/-- Parse a length-prefixed string from a token stream. -/
def parseStr : List Nat → Option (String × List Nat)
  | [] => none
  | len :: rest =>
    if len ≤ rest.length then
      some (String.mk ((rest.take len).map Char.ofNat), rest.drop len)
    else none

/-- Parse a time unit token. -/
def parseUnit : Nat → Option PTimeUnit
  | 0 => some .ns
  | 1 => some .us
  | 2 => some .ms
  | _ => none

/-- Parse `k` length-prefixed strings from a token stream. -/
def parseStrs (k : Nat) (ts : List Nat) : Option (List String × List Nat) :=
  match k with
  | 0 => some ([], ts)
  | k + 1 =>
    match parseStr ts with
    | some (s, r) =>
      match parseStrs k r with
      | some (ss, r2) => some (s :: ss, r2)
      | none => none
    | none => none

mutual

/-- Parse one dtype from a token stream (fuel-bounded recursion). -/
def parsePDType (fuel : Nat) (ts : List Nat) : Option (PDType × List Nat) :=
  match fuel with
  | 0 => none
  | fuel + 1 =>
    match ts with
    | [] => none
    | 0 :: r => some (.int8, r)
    | 1 :: r => some (.int16, r)
    | 2 :: r => some (.int32, r)
    | 3 :: r => some (.int64, r)
    | 4 :: r => some (.uint8, r)
    | 5 :: r => some (.uint16, r)
    | 6 :: r => some (.uint32, r)
    | 7 :: r => some (.uint64, r)
    | 8 :: r => some (.float32, r)
    | 9 :: r => some (.float64, r)
    | 10 :: r => some (.boolean, r)
    | 11 :: r => some (.string, r)
    | 12 :: r => some (.binary, r)
    | 13 :: r => some (.null, r)
    | 14 :: r => some (.date, r)
    | 15 :: r => some (.time, r)
    | 16 :: r => some (.categorical, r)
    | 23 :: r => some (.object, r)
    | 24 :: r => some (.unknown, r)
    | 17 :: u :: r =>
      match parseUnit u with
      | some tu => some (.duration tu, r)
      | none => none
    | 18 :: u :: 0 :: r =>
      match parseUnit u with
      | some tu => some (.datetime tu none, r)
      | none => none
    | 18 :: u :: 1 :: r =>
      match parseUnit u, parseStr r with
      | some tu, some (z, r2) => some (.datetime tu (some z), r2)
      | _, _ => none
    | 19 :: k :: r =>
      match parseStrs k r with
      | some (cs, r2) => some (.enum cs, r2)
      | none => none
    | 20 :: r =>
      match parsePDType fuel r with
      | some (t, r2) => some (.list t, r2)
      | none => none
    | 21 :: w :: r =>
      match parsePDType fuel r with
      | some (t, r2) => some (.array t w, r2)
      | none => none
    | 22 :: k :: r =>
      match parsePFields fuel k r with
      | some (fs, r2) => some (.struct fs, r2)
      | none => none
    | _ => none

/-- Parse `k` struct fields from a token stream. -/
def parsePFields (fuel : Nat) (k : Nat) (ts : List Nat) : Option (PStructFields × List Nat) :=
  match fuel with
  | 0 => none
  | fuel + 1 =>
    match k with
    | 0 => some (.nil, ts)
    | k + 1 =>
      match parseStr ts with
      | some (n, r) =>
        match parsePDType fuel r with
        | some (t, r2) =>
          match parsePFields fuel k r2 with
          | some (fs, r3) => some (.cons n t fs, r3)
          | none => none
        | none => none
      | none => none

end

/-- Parse `k` schema entries from a token stream. -/
def parseEntries (k : Nat) (ts : List Nat) : Option (List (String × PDType) × List Nat) :=
  match k with
  | 0 => some ([], ts)
  | k + 1 =>
    match parseStr ts with
    | some (n, r) =>
      match parsePDType (r.length + 1) r with
      | some (t, r2) =>
        match parseEntries k r2 with
        | some (es, r3) => some ((n, t) :: es, r3)
        | none => none
      | none => none
    | none => none

/-- The modelled `pl.DataFrame.deserialize(BytesIO(base64.b64decode(s)))`,
recovering the schema of a stored DataFrame; fails on strings outside the
image of `encodeDf`. -/
def decodeDf (s : String) : Except PyErr PolarsSchema :=
  match readToken s.data with
  | none => .error .deserializeError
  | some (k, rest) =>
    match readTokens (countAllTokens rest) rest with
    | none => .error .deserializeError
    | some (ts, leftover) =>
      if leftover.isEmpty then
        match parseEntries k ts with
        | some (es, []) => .ok es
        | _ => .error .deserializeError
      else .error .deserializeError
where
  /-- Upper bound on the number of unary chunks left: the count of b-marks. -/
  countAllTokens (cs : List Char) : Nat := cs.countP (fun c => c = 'b')

/-! ## `drifter/__init__.py`: the package-level registrar

`register(dataframe, source_id)` is modelled as a state-passing function:
the state is the content of the per-source artifact
`.drifter/<source_id>.json`, an `Option FileBytes` (`none` when the file
does not exist).  `datetime.now(UTC).isoformat()` is passed in as the
`now` argument. -/

/-- Bytes of a persisted artifact: either UTF-8 text that parses as JSON
(`json.loads` succeeds, giving `v`) or text that does not. -/
inductive FileBytes where
  | jsonText (v : PyVal)
  | invalid

/-- A change in a column, from `drifter/__init__.py` (frozen dataclass
`ColumnChange(name, old_type, new_type)`). -/
structure ColumnChange where
  name : String
  old_type : Option PDType
  new_type : Option PDType

/-- The diff result, from `drifter/__init__.py` (frozen dataclass
`SchemaChange(added, removed, changed)`). -/
structure SchemaChange where
  added : List ColumnChange
  removed : List ColumnChange
  changed : List ColumnChange

/-- Truthiness of a `SchemaChange`: `bool(self.added or self.removed or
self.changed)`. -/
def SchemaChange.hasChanges (c : SchemaChange) : Bool :=
  !(c.added.isEmpty && c.removed.isEmpty && c.changed.isEmpty)

/-- `_load_history`: absent file or a `json.JSONDecodeError` yields `[]`;
otherwise the parsed JSON value is returned as-is.  The Python annotation
promises `list[SchemaVersion]` but nothing validates the parsed value, so
the model returns the raw `PyVal`. -/
def load_history : Option FileBytes → PyVal
  | none => .vList .nil
  | some .invalid => .vList .nil
  | some (.jsonText v) => v

/-- Python truthiness of a JSON-shaped value. -/
def truthy : PyVal → Bool
  | .vNone => false
  | .vBool b => b
  | .vInt n => n != 0
  | .vStr s => !s.isEmpty
  | .vList .nil => false
  | .vList (.cons _ _) => true
  | .vDict .nil => false
  | .vDict (.cons _ _ _) => true

/-- `history[-1]`: last element of a list, last character of a string,
`KeyError` on a dict (string keys never equal `-1`), `TypeError` on
scalars. -/
def pyIndexLast : PyVal → Except PyErr PyVal
  | .vList xs =>
    match xs.last with
    | some x => .ok x
    | none => .error .indexError
  | .vStr s =>
    match s.data.getLast? with
    | some c => .ok (.vStr (String.mk [c]))
    | none => .error .indexError
  | .vDict _ => .error (.keyError "-1")
  | .vNone | .vBool _ | .vInt _ => .error .typeError

/-- `latest["dataframe"]`: string subscription of a value. -/
def pySubscript (v : PyVal) (k : String) : Except PyErr PyVal :=
  match v with
  | .vDict d =>
    match d.lookup k with
    | some x => .ok x
    | none => .error (.keyError k)
  | _ => .error .typeError

/-- `pl.DataFrame.deserialize(BytesIO(base64.b64decode(v)))`: the argument
must be a string (else `TypeError` from `b64decode`), then the modelled
codec decodes it. -/
def decode_dataframe (v : PyVal) : Except PyErr PolarsSchema :=
  match v with
  | .vStr s => decodeDf s
  | _ => .error .typeError

/-- `history.append(entry)`: only lists have `append`. -/
def pyAppend (v : PyVal) (e : PyVal) : Except PyErr PyVal :=
  match v with
  | .vList xs => .ok (.vList (xs.push e))
  | _ => .error .attributeError

/-- `_compare_schemas(old_df, new_df)` from `drifter/__init__.py`:
`added` are names of `new` absent from `old`, `removed` the converse, and
`changed` the names present in both whose dtypes compare unequal with
Polars `!=`. -/
def compare_schemas (old new : PolarsSchema) : SchemaChange :=
  { added :=
      (new.filter (fun e => (schemaLookup old e.1).isNone)).map
        (fun e => ⟨e.1, none, some e.2⟩)
    removed :=
      (old.filter (fun e => (schemaLookup new e.1).isNone)).map
        (fun e => ⟨e.1, some e.2, none⟩)
    changed :=
      old.filterMap (fun e =>
        match schemaLookup old e.1, schemaLookup new e.1 with
        | some dOld, some dNew =>
          if pdBeq dOld dNew then none else some ⟨e.1, some dOld, some dNew⟩
        | _, _ => none) }

/-- The history entry appended by `register`:
`{"dataframe": base64-serialized DataFrame, "timestamp": now}`. -/
def schema_version_entry (df : PolarsSchema) (now : String) : PyVal :=
  .vDict (.cons "dataframe" (.vStr (encodeDf df))
    (.cons "timestamp" (.vStr now) .nil))

/-- `register(dataframe, source_id)` from `drifter/__init__.py`, with the
artifact content passed and returned explicitly.  `dataframe.clone()` keeps
the schema, the only part the model tracks. -/
def register (dataframe : PolarsSchema) (now : String) (store : Option FileBytes) :
    Except PyErr (SchemaChange × Option FileBytes) := do
  let history := load_history store
  let changes ←
    if truthy history = false then
      pure (SchemaChange.mk (dataframe.map fun e => ⟨e.1, none, some e.2⟩) [] [])
    else do
      let latest ← pyIndexLast history
      let dfield ← pySubscript latest "dataframe"
      let oldDf ← decode_dataframe dfield
      pure (compare_schemas oldDf dataframe)
  if changes.hasChanges then do
    let newHistory ← pyAppend history (schema_version_entry dataframe now)
    pure (changes, some (.jsonText newHistory))
  else
    pure (changes, store)

/-! ## `drifter/core.py`: the frozen dataclass field model

`CoreField` mirrors the dataclass hierarchy of `core.py` exactly, one
constructor per class.  The base class `Field` is itself a concrete frozen
dataclass (`Field(nullable=...)` is constructible and carries the
discriminant tag `"Field"`), hence the `base` constructor.  `bits`, `width`
and `shape` entries are Python `int` values (the `Literal` annotations are
static-only), so they are modelled as `Int`. -/

mutual

/-- The dataclasses of `core.py`.  Tags: `Field`, `Float`, `Integer`,
`Date`, `Datetime`, `Duration`, `Time`, `Array`, `List`, `Struct`,
`String`, `Categorical`, `Enum`, `Binary`, `Boolean`, `Null`. -/
inductive CoreField where
  | base (nullable : Bool)
  | float (nullable : Bool) (bits : Int)
  | integer (nullable : Bool) (bits : Int) (signed : Bool)
  | date (nullable : Bool)
  | datetime (nullable : Bool)
  | duration (nullable : Bool)
  | time (nullable : Bool)
  | array (nullable : Bool) (inner : CoreField) (shape : Option (List Int)) (width : Option Int)
  | list (nullable : Bool) (inner : CoreField)
  | struct (nullable : Bool) (fields : CoreFields)
  | string (nullable : Bool)
  | categorical (nullable : Bool) (ordered : Bool)
  | enum (nullable : Bool) (variants : List String)
  | binary (nullable : Bool)
  | boolean (nullable : Bool)
  | null (nullable : Bool)

/-- The `fields` mapping of a `StructField`, in insertion order. -/
inductive CoreFields where
  | nil : CoreFields
  | cons (name : String) (f : CoreField) (rest : CoreFields) : CoreFields

end

mutual

/-- A field is concrete when no bare base-class `Field` occurs in it,
recursively: these are the fields built from the 15 tagged variants. -/
def isConcrete : CoreField → Bool
  | .base _ => false
  | .array _ inner _ _ => isConcrete inner
  | .list _ inner => isConcrete inner
  | .struct _ fs => isConcreteFields fs
  | _ => true

/-- All fields of a struct field mapping are concrete. -/
def isConcreteFields : CoreFields → Bool
  | .nil => true
  | .cons _ f rest => isConcrete f && isConcreteFields rest

end

/-- Build a `PyList` of strings. -/
def pyStrList : List String → PyList
  | [] => .nil
  | s :: rest => .cons (.vStr s) (pyStrList rest)

/-- Build a `PyList` of integers. -/
def pyIntList : List Int → PyList
  | [] => .nil
  | n :: rest => .cons (.vInt n) (pyIntList rest)

/-- Serialize an optional integer list (`shape`) the way `asdict` renders
`list[int] | None`. -/
def pyOptIntList : Option (List Int) → PyVal
  | none => .vNone
  | some xs => .vList (pyIntList xs)

/-- Serialize an optional integer (`width`). -/
def pyOptInt : Option Int → PyVal
  | none => .vNone
  | some n => .vInt n

mutual

/-- The entries of `dataclasses.asdict` on a `core.py` field: the dataclass
fields in declaration order (`nullable`, `type`, then the subclass
parameters), recursing into nested fields, mappings and lists. -/
def fieldEntries : CoreField → PyDict
  | .base n =>
    .cons "nullable" (.vBool n) (.cons "type" (.vStr "Field") .nil)
  | .float n bits =>
    .cons "nullable" (.vBool n) (.cons "type" (.vStr "Float")
      (.cons "bits" (.vInt bits) .nil))
  | .integer n bits signed =>
    .cons "nullable" (.vBool n) (.cons "type" (.vStr "Integer")
      (.cons "bits" (.vInt bits) (.cons "signed" (.vBool signed) .nil)))
  | .date n =>
    .cons "nullable" (.vBool n) (.cons "type" (.vStr "Date") .nil)
  | .datetime n =>
    .cons "nullable" (.vBool n) (.cons "type" (.vStr "Datetime") .nil)
  | .duration n =>
    .cons "nullable" (.vBool n) (.cons "type" (.vStr "Duration") .nil)
  | .time n =>
    .cons "nullable" (.vBool n) (.cons "type" (.vStr "Time") .nil)
  | .array n inner shape width =>
    .cons "nullable" (.vBool n) (.cons "type" (.vStr "Array")
      (.cons "inner" (.vDict (fieldEntries inner))
        (.cons "shape" (pyOptIntList shape) (.cons "width" (pyOptInt width) .nil))))
  | .list n inner =>
    .cons "nullable" (.vBool n) (.cons "type" (.vStr "List")
      (.cons "inner" (.vDict (fieldEntries inner)) .nil))
  | .struct n fs =>
    .cons "nullable" (.vBool n) (.cons "type" (.vStr "Struct")
      (.cons "fields" (.vDict (serializeFields fs)) .nil))
  | .string n =>
    .cons "nullable" (.vBool n) (.cons "type" (.vStr "String") .nil)
  | .categorical n o =>
    .cons "nullable" (.vBool n) (.cons "type" (.vStr "Categorical")
      (.cons "ordered" (.vBool o) .nil))
  | .enum n vs =>
    .cons "nullable" (.vBool n) (.cons "type" (.vStr "Enum")
      (.cons "variants" (.vList (pyStrList vs)) .nil))
  | .binary n =>
    .cons "nullable" (.vBool n) (.cons "type" (.vStr "Binary") .nil)
  | .boolean n =>
    .cons "nullable" (.vBool n) (.cons "type" (.vStr "Boolean") .nil)
  | .null n =>
    .cons "nullable" (.vBool n) (.cons "type" (.vStr "Null") .nil)

/-- `asdict` on the `fields` mapping of a struct. -/
def serializeFields : CoreFields → PyDict
  | .nil => .nil
  | .cons k f rest => .cons k (.vDict (fieldEntries f)) (serializeFields rest)

end

/-- `dataclasses.asdict` on a `core.py` field, as used by
`Schema.to_dict`: the dict of the field entries. -/
def serializeField (f : CoreField) : PyVal :=
  .vDict (fieldEntries f)

/-- Fetch a required dict entry (`data[k]`). -/
def getKey (d : PyDict) (k : String) : Except PyErr PyVal :=
  match d.lookup k with
  | some v => .ok v
  | none => .error (.keyError k)

/-- Fetch a required boolean entry.  A present entry of a different runtime
type is modelled as `typeError`; CPython would instead construct an
ill-typed dataclass, a corner no claim depends on. -/
def getBool (d : PyDict) (k : String) : Except PyErr Bool :=
  match d.lookup k with
  | some (.vBool b) => .ok b
  | some _ => .error .typeError
  | none => .error (.keyError k)

/-- Fetch a required integer entry (same modelling note as `getBool`). -/
def getInt (d : PyDict) (k : String) : Except PyErr Int :=
  match d.lookup k with
  | some (.vInt n) => .ok n
  | some _ => .error .typeError
  | none => .error (.keyError k)

/-- Read a `PyList` of strings back into a `List String`. -/
def asStrList : PyList → Option (List String)
  | .nil => some []
  | .cons (.vStr s) rest =>
    match asStrList rest with
    | some ss => some (s :: ss)
    | none => none
  | .cons _ _ => none

/-- Read a `PyList` of integers back into a `List Int`. -/
def asIntList : PyList → Option (List Int)
  | .nil => some []
  | .cons (.vInt n) rest =>
    match asIntList rest with
    | some ns => some (n :: ns)
    | none => none
  | .cons _ _ => none

/-- Fetch a required list-of-strings entry (`variants`). -/
def getStrList (d : PyDict) (k : String) : Except PyErr (List String) :=
  match d.lookup k with
  | some (.vList xs) =>
    match asStrList xs with
    | some ss => .ok ss
    | none => .error .typeError
  | some _ => .error .typeError
  | none => .error (.keyError k)

/-- `data.get(k)` for the optional `shape` parameter: a missing key or an
explicit `None` both give `None`. -/
def getOptIntList (d : PyDict) (k : String) : Except PyErr (Option (List Int)) :=
  match d.lookup k with
  | none => .ok none
  | some .vNone => .ok none
  | some (.vList xs) =>
    match asIntList xs with
    | some ns => .ok (some ns)
    | none => .error .typeError
  | some _ => .error .typeError

/-- `data.get(k)` for the optional `width` parameter. -/
def getOptInt (d : PyDict) (k : String) : Except PyErr (Option Int) :=
  match d.lookup k with
  | none => .ok none
  | some .vNone => .ok none
  | some (.vInt n) => .ok (some n)
  | some _ => .error .typeError

/-- Keyword-argument binding of `field_cls(**{k: v for k, v in data.items()
if k != "type"})`: every non-`type` key must be an accepted parameter and
every required parameter must be present, else `TypeError`. -/
def kwargsOk (d : PyDict) (req opt : List String) : Bool :=
  (d.keys.all fun k => k = "type" || req.contains k || opt.contains k) &&
  (req.all fun k => (d.lookup k).isSome)

mutual

/-- `field_from_dict` from `core.py`, fuel-bounded (the fuel is an
artifact of the embedding; it never runs out when it exceeds the size of
the input, see `field_from_dict_roundtrip`).  Reads `data["type"]`, handles
`List` / `Array` / `Struct` recursively, then dispatches on
`FIELD_CLASSES`; an unknown tag raises
`ValueError(f"Unknown field type: {field_type}")`, modelled as
`unknownFieldType`. -/
def field_from_dict (fuel : Nat) (data : PyVal) : Except PyErr CoreField :=
  match fuel with
  | 0 => .error .fuelOut
  | fuel + 1 =>
    match data with
    | .vDict d =>
      match d.lookup "type" with
      | none => .error (.keyError "type")
      | some tv =>
        match tv with
        | .vStr tag =>
          if tag = "List" then do
            let nb ← getBool d "nullable"
            let innerv ← getKey d "inner"
            let inner ← field_from_dict fuel innerv
            .ok (.list nb inner)
          else if tag = "Array" then do
            let nb ← getBool d "nullable"
            let innerv ← getKey d "inner"
            let inner ← field_from_dict fuel innerv
            let shape ← getOptIntList d "shape"
            let width ← getOptInt d "width"
            .ok (.array nb inner shape width)
          else if tag = "Struct" then do
            let nb ← getBool d "nullable"
            let fieldsv ← getKey d "fields"
            match fieldsv with
            | .vDict fd => do
              let fs ← fields_from_dict fuel fd
              .ok (.struct nb fs)
            | _ => .error .attributeError
          else if tag = "Float" then
            if kwargsOk d ["nullable", "bits"] [] then do
              let nb ← getBool d "nullable"
              let bits ← getInt d "bits"
              .ok (.float nb bits)
            else .error .typeError
          else if tag = "Integer" then
            if kwargsOk d ["nullable", "bits", "signed"] [] then do
              let nb ← getBool d "nullable"
              let bits ← getInt d "bits"
              let signed ← getBool d "signed"
              .ok (.integer nb bits signed)
            else .error .typeError
          else if tag = "Date" then
            if kwargsOk d ["nullable"] [] then do
              let nb ← getBool d "nullable"
              .ok (.date nb)
            else .error .typeError
          else if tag = "Datetime" then
            if kwargsOk d ["nullable"] [] then do
              let nb ← getBool d "nullable"
              .ok (.datetime nb)
            else .error .typeError
          else if tag = "Duration" then
            if kwargsOk d ["nullable"] [] then do
              let nb ← getBool d "nullable"
              .ok (.duration nb)
            else .error .typeError
          else if tag = "Time" then
            if kwargsOk d ["nullable"] [] then do
              let nb ← getBool d "nullable"
              .ok (.time nb)
            else .error .typeError
          else if tag = "String" then
            if kwargsOk d ["nullable"] [] then do
              let nb ← getBool d "nullable"
              .ok (.string nb)
            else .error .typeError
          else if tag = "Categorical" then
            if kwargsOk d ["nullable"] ["ordered"] then do
              let nb ← getBool d "nullable"
              match d.lookup "ordered" with
              | some (.vBool o) => .ok (.categorical nb o)
              | some _ => .error .typeError
              | none => .ok (.categorical nb false)
            else .error .typeError
          else if tag = "Enum" then
            if kwargsOk d ["nullable", "variants"] [] then do
              let nb ← getBool d "nullable"
              let vs ← getStrList d "variants"
              .ok (.enum nb vs)
            else .error .typeError
          else if tag = "Binary" then
            if kwargsOk d ["nullable"] [] then do
              let nb ← getBool d "nullable"
              .ok (.binary nb)
            else .error .typeError
          else if tag = "Boolean" then
            if kwargsOk d ["nullable"] [] then do
              let nb ← getBool d "nullable"
              .ok (.boolean nb)
            else .error .typeError
          else if tag = "Null" then
            if kwargsOk d ["nullable"] [] then do
              let nb ← getBool d "nullable"
              .ok (.null nb)
            else .error .typeError
          else .error (.unknownFieldType (.vStr tag))
        | _ => .error (.unknownFieldType tv)
    | _ => .error .typeError

/-- The dict comprehension of the `Struct` branch: deserialize every value
of `data["fields"]`, in order. -/
def fields_from_dict (fuel : Nat) (fd : PyDict) : Except PyErr CoreFields :=
  match fuel with
  | 0 => .error .fuelOut
  | fuel + 1 =>
    match fd with
    | .nil => .ok .nil
    | .cons k v rest => do
      let f ← field_from_dict fuel v
      let fs ← fields_from_dict fuel rest
      .ok (.cons k f fs)

end

/-- `field_from_dict` with enough fuel for its input, the form used by the
claims: the fuel bound provably never fires (see the round-trip lemmas). -/
def field_from_dictTop (data : PyVal) : Except PyErr CoreField :=
  field_from_dict (pyValSize data + 1) data

/-! ## `drifter/schema.py`: the TypedDict field model and its register diff

`schema.py` is a self-contained legacy module with its own field model: a
family of TypedDicts, each carrying the column `name`, a `type_hash`
(computed as `hash(dtype)` when a field is built from a live Polars dtype,
or whatever integer the history file holds when loaded back), and the
variant payload.  Its `register` compares fields with `are_fields_equal`,
which reads the hashes only. -/

/-- Primitive dtype tags of `schema.py` (`PrimitiveField.dtype`). -/
inductive SPrimTag where
  | string | bool | binary | null | obj | unknownTag
deriving DecidableEq

/-- Numeric dtype tags of `schema.py` (`NumericField.dtype`). -/
inductive SNumTag where
  | int | uint | float
deriving DecidableEq

/-- Categorical ordering of `schema.py` (`CategoricalField.ordering`). -/
inductive SCatOrdering where
  | lexical | physical
deriving DecidableEq

mutual

/-- A `schema.py` field value: one constructor per TypedDict variant. -/
inductive SField where
  | prim (name : String) (typeHash : Int) (dtype : SPrimTag)
  | categorical (name : String) (typeHash : Int) (ordering : Option SCatOrdering)
  | enum (name : String) (typeHash : Int) (categories : List String)
  | numeric (name : String) (typeHash : Int) (dtype : SNumTag) (bitWidth : Nat)
  | date (name : String) (typeHash : Int)
  | time (name : String) (typeHash : Int)
  | datetime (name : String) (typeHash : Int) (timeUnit : PTimeUnit) (timezone : Option String)
  | duration (name : String) (typeHash : Int) (timeUnit : PTimeUnit)
  | list (name : String) (typeHash : Int) (inner : SField)
  | array (name : String) (typeHash : Int) (inner : SField) (size : Nat)
  | struct (name : String) (typeHash : Int) (fields : SFields)
deriving DecidableEq

/-- The `fields` mapping of a `schema.py` `StructField`. -/
inductive SFields where
  | nil : SFields
  | cons (key : String) (v : SField) (rest : SFields) : SFields
deriving DecidableEq

end

/-- The `type_hash` entry common to every `schema.py` field. -/
def SField.type_hash : SField → Int
  | .prim _ h _ => h
  | .categorical _ h _ => h
  | .enum _ h _ => h
  | .numeric _ h _ _ => h
  | .date _ h => h
  | .time _ h => h
  | .datetime _ h _ _ => h
  | .duration _ h _ => h
  | .list _ h _ => h
  | .array _ h _ _ => h
  | .struct _ h _ => h

/-- `_are_fields_equal` from `schema.py`, verbatim: two fields are equal
iff their `type_hash` entries are. -/
def are_fields_equal (field1 field2 : SField) : Bool :=
  field1.type_hash == field2.type_hash

/-- Lookup in a `schema.py` fields mapping (a Python dict). -/
def sFieldLookup : List (String × SField) → String → Option SField
  | [], _ => none
  | (n, f) :: rest, key => if n = key then some f else sFieldLookup rest key

/-- Lookup inside a nested `SFields` struct mapping. -/
def sfLookup : SFields → String → Option SField
  | .nil, _ => none
  | .cons k v rest, key => if k = key then some v else sfLookup rest key

/-- A `schema.py` `Schema` TypedDict: `{"version": ..., "fields": ...}`. -/
structure SSchema where
  version : String
  fields : List (String × SField)

/-- A changed column, from `schema.py` (`ColumnChange(field, old, new)`). -/
structure SColumnChange where
  field : String
  old : SField
  new : SField

/-- The diff result of `schema.py` (`SchemaChanges(added, removed,
changed)`; `added`/`removed` are name-to-field dicts, `changed` maps names
to `ColumnChange` values). -/
structure SSchemaChanges where
  added : List (String × SField)
  removed : List (String × SField)
  changed : List SColumnChange

/-- The added/removed/changed block of `schema.py register` (lines
390-412): `added` and `removed` by key-set difference, `changed` over the
key-set intersection filtered by `not _are_fields_equal(current, prev)`.
The Python sets are iterated here in the current (resp. previous) schema
order; set iteration order is immaterial to the resulting collections. -/
def register_changes (prev current : SSchema) : SSchemaChanges :=
  { added := current.fields.filter (fun e => (sFieldLookup prev.fields e.1).isNone)
    removed := prev.fields.filter (fun e => (sFieldLookup current.fields e.1).isNone)
    changed := current.fields.filterMap (fun e =>
      match sFieldLookup current.fields e.1, sFieldLookup prev.fields e.1 with
      | some cur, some old =>
        if are_fields_equal cur old then none
        else some ⟨e.1, old, cur⟩
      | _, _ => none) }

/-! ### Structural equality, following the specification

The spec (section 3) defines: two Fields are structurally equal iff their
variant tags and all parameters are equal, recursively; Enum label
sequences equal in order; Struct mappings with the same field names and
equal fields, order-independent; Sequence with the same size policy and
equal inner.  The relation below renders those words over the `schema.py`
field values; the `type_hash` is not part of the structure (the spec calls
a hash at most a cache over the structural definition). -/

mutual

/-- Spec-side structural equality of `schema.py` fields. -/
inductive SpecEq : SField → SField → Prop where
  | prim (n : String) (h1 h2 : Int) (t : SPrimTag) :
      SpecEq (.prim n h1 t) (.prim n h2 t)
  | categorical (n : String) (h1 h2 : Int) (o : Option SCatOrdering) :
      SpecEq (.categorical n h1 o) (.categorical n h2 o)
  | enum (n : String) (h1 h2 : Int) (cs : List String) :
      SpecEq (.enum n h1 cs) (.enum n h2 cs)
  | numeric (n : String) (h1 h2 : Int) (t : SNumTag) (w : Nat) :
      SpecEq (.numeric n h1 t w) (.numeric n h2 t w)
  | date (n : String) (h1 h2 : Int) : SpecEq (.date n h1) (.date n h2)
  | time (n : String) (h1 h2 : Int) : SpecEq (.time n h1) (.time n h2)
  | datetime (n : String) (h1 h2 : Int) (u : PTimeUnit) (z : Option String) :
      SpecEq (.datetime n h1 u z) (.datetime n h2 u z)
  | duration (n : String) (h1 h2 : Int) (u : PTimeUnit) :
      SpecEq (.duration n h1 u) (.duration n h2 u)
  | list (n : String) (h1 h2 : Int) (i1 i2 : SField) :
      SpecEq i1 i2 → SpecEq (.list n h1 i1) (.list n h2 i2)
  | array (n : String) (h1 h2 : Int) (i1 i2 : SField) (sz : Nat) :
      SpecEq i1 i2 → SpecEq (.array n h1 i1 sz) (.array n h2 i2 sz)
  | struct (n : String) (h1 h2 : Int) (fs1 fs2 : SFields) :
      (∀ k, (sfLookup fs1 k).isSome ↔ (sfLookup fs2 k).isSome) →
      SpecEqAt fs1 fs2 →
      SpecEq (.struct n h1 fs1) (.struct n h2 fs2)

/-- Value-wise spec equality of struct mappings: wherever both mappings
bind a key, the bound fields are structurally equal (order-independent). -/
inductive SpecEqAt : SFields → SFields → Prop where
  | intro (fs1 fs2 : SFields) :
      (∀ k v w, sfLookup fs1 k = some v → sfLookup fs2 k = some w → SpecEq v w) →
      SpecEqAt fs1 fs2

end

/-! ## `drifter/polars.py`: the Polars-to-drifter adapter

`polars.py` imports `SequenceField` from `drifter.core`, but `core.py`
defines no such class, so the module cannot even be imported as shipped.
`PField` below is the field universe the adapter code is written against:
the `core.py` classes it imports, together with `SequenceField`.

Modelled from the spec: `SequenceField`, the Sequence variant missing from
`core.py`, carries `inner : Field` and `size : optional integer`
(`size = None` means variable length, `size = N` fixed length `N`). -/

mutual

/-- The field universe of `polars.py`: the imported `core.py` classes plus
the spec-modelled `SequenceField`. -/
inductive PField where
  | integer (nullable : Bool) (bits : Int) (signed : Bool)
  | float (nullable : Bool) (bits : Int)
  | date (nullable : Bool)
  | datetime (nullable : Bool)
  | string (nullable : Bool)
  | binary (nullable : Bool)
  | categorical (nullable : Bool) (ordered : Bool)
  | enum (nullable : Bool) (variants : List String)
  | boolean (nullable : Bool)
  | sequence (nullable : Bool) (inner : PField) (size : Option Nat)
  | struct (nullable : Bool) (fields : PFieldMap)
deriving DecidableEq

/-- The `fields` mapping of an adapter-produced `StructField`. -/
inductive PFieldMap where
  | nil : PFieldMap
  | cons (name : String) (f : PField) (rest : PFieldMap) : PFieldMap
deriving DecidableEq

end

/-- `_map_signed_dtype` from `polars.py`. -/
def map_signed_dtype (dtype : PDType) (nullable : Bool) : Option PField :=
  match dtype with
  | .int8 => some (.integer nullable 8 true)
  | .int16 => some (.integer nullable 16 true)
  | .int32 => some (.integer nullable 32 true)
  | .int64 => some (.integer nullable 64 true)
  | _ => none

/-- `_map_unsigned_dtype` from `polars.py`. -/
def map_unsigned_dtype (dtype : PDType) (nullable : Bool) : Option PField :=
  match dtype with
  | .uint8 => some (.integer nullable 8 false)
  | .uint16 => some (.integer nullable 16 false)
  | .uint32 => some (.integer nullable 32 false)
  | .uint64 => some (.integer nullable 64 false)
  | _ => none

/-- `_map_float_dtype` from `polars.py`. -/
def map_float_dtype (dtype : PDType) (nullable : Bool) : Option PField :=
  match dtype with
  | .float32 => some (.float nullable 32)
  | .float64 => some (.float nullable 64)
  | _ => none

/-- `_map_temporal_dtype` from `polars.py`: note the source maps `Time`
and `Duration` to `DatetimeField` as well. -/
def map_temporal_dtype (dtype : PDType) (nullable : Bool) : Option PField :=
  match dtype with
  | .date => some (.date nullable)
  | .datetime _ _ => some (.datetime nullable)
  | .time => some (.datetime nullable)
  | .duration _ => some (.datetime nullable)
  | _ => none

/-- `_map_string_dtype` from `polars.py`: note `Categorical` is always
mapped with `ordered=True`. -/
def map_string_dtype (dtype : PDType) (nullable : Bool) : Option PField :=
  match dtype with
  | .string => some (.string nullable)
  | .binary => some (.binary nullable)
  | .categorical => some (.categorical nullable true)
  | .enum cs => some (.enum nullable cs)
  | _ => none

mutual

/-- `_map_nested_dtype` from `polars.py`, fuel-bounded.  The first match
arm of the source, `case pl.List() | pl.Array():`, captures Array dtypes
too and returns `size=None`; the dedicated Array arm at lines 117-123
(returning `size=dtype.width`) is unreachable. -/
def map_nested_dtype (fuel : Nat) (dtype : PDType) (nullable : Bool) :
    Except PyErr (Option PField) :=
  match fuel with
  | 0 => .error .fuelOut
  | fuel + 1 =>
    match dtype with
    | .list inner0 => do
      let inner ← map_polars_dtype fuel inner0 nullable
      .ok (some (.sequence nullable inner none))
    | .array inner0 _ => do
      let inner ← map_polars_dtype fuel inner0 nullable
      .ok (some (.sequence nullable inner none))
    | .struct fs => do
      let mapped ← map_struct_fields fuel fs nullable
      .ok (some (.struct nullable mapped))
    | _ => .ok none

/-- The dict comprehension of the `Struct` arm of `_map_nested_dtype`. -/
def map_struct_fields (fuel : Nat) (fs : PStructFields) (nullable : Bool) :
    Except PyErr PFieldMap :=
  match fuel with
  | 0 => .error .fuelOut
  | fuel + 1 =>
    match fs with
    | .nil => .ok .nil
    | .cons n t rest => do
      let f ← map_polars_dtype fuel t nullable
      let fsm ← map_struct_fields fuel rest nullable
      .ok (.cons n f fsm)

/-- `_map_polars_dtype` from `polars.py`, fuel-bounded: `Boolean` and
`Null` special cases (a `Null` column becomes an always-nullable
`StringField`), `Object`/`Unknown` raise `TypeError`, then the mapper
chain `signed, unsigned, float, temporal, string, nested`; a dtype no
mapper accepts raises `TypeError`. -/
def map_polars_dtype (fuel : Nat) (dtype : PDType) (nullable : Bool) :
    Except PyErr PField :=
  match fuel with
  | 0 => .error .fuelOut
  | fuel + 1 =>
    match dtype with
    | .boolean => .ok (.boolean nullable)
    | .null => .ok (.string true)
    | .object => .error .typeError
    | .unknown => .error .typeError
    | _ =>
      match map_signed_dtype dtype nullable with
      | some f => .ok f
      | none =>
      match map_unsigned_dtype dtype nullable with
      | some f => .ok f
      | none =>
      match map_float_dtype dtype nullable with
      | some f => .ok f
      | none =>
      match map_temporal_dtype dtype nullable with
      | some f => .ok f
      | none =>
      match map_string_dtype dtype nullable with
      | some f => .ok f
      | none => do
        let r ← map_nested_dtype fuel dtype nullable
        match r with
        | some f => .ok f
        | none => .error .typeError

end

mutual

/-- Size of a dtype, the fuel bound for the adapter. -/
def pdtSize : PDType → Nat
  | .list t => pdtSize t + 1
  | .array t _ => pdtSize t + 1
  | .struct fs => pfsSize fs + 1
  | _ => 1

/-- Size of a struct field list. -/
def pfsSize : PStructFields → Nat
  | .nil => 1
  | .cons _ t rest => pdtSize t + pfsSize rest + 1

end

/-- `_map_polars_dtype` with enough fuel for its input. -/
def map_polars_dtypeTop (dtype : PDType) (nullable : Bool) : Except PyErr PField :=
  map_polars_dtype (2 * pdtSize dtype + 2) dtype nullable

/-- `from_polars_schema` from `polars.py`: one entry per column, in
source order, every column mapped with `nullable=True`. -/
def from_polars_schema (df : PolarsSchema) : Except PyErr (List (String × PField)) :=
  match df with
  | [] => .ok []
  | (n, d) :: rest => do
    let f ← map_polars_dtypeTop d true
    let fs ← from_polars_schema rest
    .ok ((n, f) :: fs)

/-! ### Well-shaped field dictionaries, following the specification

Spec section 4.1: deserialization reads the discriminant tag, recursively
deserializes nested fields, and succeeds when the required parameters of
the selected variant are present and of the right shape.  `WellShaped d f`
renders that as a relation between an input dict and the field it
describes: the tag entry selects the variant, the parameter entries carry
the shown values, and (for the non-nested variants, where the source binds
the dict as keyword arguments) no unexpected parameter is present. -/

/-- The keys of a dict all lie in an allowed set. -/
def KeysAmong (d : PyDict) (allowed : List String) : Prop :=
  ∀ k, k ∈ d.keys → k ∈ allowed

/-- Shape of the optional `shape` parameter of an Array dict. -/
def OptIntListVal : Option PyVal → Option (List Int) → Prop
  | none, none => True
  | some .vNone, none => True
  | some (.vList xs), some ns => asIntList xs = some ns
  | _, _ => False

/-- Shape of the optional `width` parameter of an Array dict. -/
def OptIntVal : Option PyVal → Option Int → Prop
  | none, none => True
  | some .vNone, none => True
  | some (.vInt n), some m => n = m
  | _, _ => False

mutual

/-- A dict is a well-shaped description of a concrete `core.py` field. -/
inductive WellShaped : PyDict → CoreField → Prop where
  | float (d : PyDict) (n : Bool) (bits : Int) :
      d.lookup "type" = some (.vStr "Float") →
      KeysAmong d ["type", "nullable", "bits"] →
      d.lookup "nullable" = some (.vBool n) →
      d.lookup "bits" = some (.vInt bits) →
      WellShaped d (.float n bits)
  | integer (d : PyDict) (n : Bool) (bits : Int) (signed : Bool) :
      d.lookup "type" = some (.vStr "Integer") →
      KeysAmong d ["type", "nullable", "bits", "signed"] →
      d.lookup "nullable" = some (.vBool n) →
      d.lookup "bits" = some (.vInt bits) →
      d.lookup "signed" = some (.vBool signed) →
      WellShaped d (.integer n bits signed)
  | date (d : PyDict) (n : Bool) :
      d.lookup "type" = some (.vStr "Date") →
      KeysAmong d ["type", "nullable"] →
      d.lookup "nullable" = some (.vBool n) →
      WellShaped d (.date n)
  | datetime (d : PyDict) (n : Bool) :
      d.lookup "type" = some (.vStr "Datetime") →
      KeysAmong d ["type", "nullable"] →
      d.lookup "nullable" = some (.vBool n) →
      WellShaped d (.datetime n)
  | duration (d : PyDict) (n : Bool) :
      d.lookup "type" = some (.vStr "Duration") →
      KeysAmong d ["type", "nullable"] →
      d.lookup "nullable" = some (.vBool n) →
      WellShaped d (.duration n)
  | time (d : PyDict) (n : Bool) :
      d.lookup "type" = some (.vStr "Time") →
      KeysAmong d ["type", "nullable"] →
      d.lookup "nullable" = some (.vBool n) →
      WellShaped d (.time n)
  | string (d : PyDict) (n : Bool) :
      d.lookup "type" = some (.vStr "String") →
      KeysAmong d ["type", "nullable"] →
      d.lookup "nullable" = some (.vBool n) →
      WellShaped d (.string n)
  | binary (d : PyDict) (n : Bool) :
      d.lookup "type" = some (.vStr "Binary") →
      KeysAmong d ["type", "nullable"] →
      d.lookup "nullable" = some (.vBool n) →
      WellShaped d (.binary n)
  | boolean (d : PyDict) (n : Bool) :
      d.lookup "type" = some (.vStr "Boolean") →
      KeysAmong d ["type", "nullable"] →
      d.lookup "nullable" = some (.vBool n) →
      WellShaped d (.boolean n)
  | null (d : PyDict) (n : Bool) :
      d.lookup "type" = some (.vStr "Null") →
      KeysAmong d ["type", "nullable"] →
      d.lookup "nullable" = some (.vBool n) →
      WellShaped d (.null n)
  | categoricalExplicit (d : PyDict) (n : Bool) (o : Bool) :
      d.lookup "type" = some (.vStr "Categorical") →
      KeysAmong d ["type", "nullable", "ordered"] →
      d.lookup "nullable" = some (.vBool n) →
      d.lookup "ordered" = some (.vBool o) →
      WellShaped d (.categorical n o)
  | categoricalDefault (d : PyDict) (n : Bool) :
      d.lookup "type" = some (.vStr "Categorical") →
      KeysAmong d ["type", "nullable", "ordered"] →
      d.lookup "nullable" = some (.vBool n) →
      d.lookup "ordered" = none →
      WellShaped d (.categorical n false)
  | enum (d : PyDict) (n : Bool) (xs : PyList) (vs : List String) :
      d.lookup "type" = some (.vStr "Enum") →
      KeysAmong d ["type", "nullable", "variants"] →
      d.lookup "nullable" = some (.vBool n) →
      d.lookup "variants" = some (.vList xs) →
      asStrList xs = some vs →
      WellShaped d (.enum n vs)
  | list (d d2 : PyDict) (n : Bool) (inner : CoreField) :
      d.lookup "type" = some (.vStr "List") →
      d.lookup "nullable" = some (.vBool n) →
      d.lookup "inner" = some (.vDict d2) →
      WellShaped d2 inner →
      WellShaped d (.list n inner)
  | array (d d2 : PyDict) (n : Bool) (inner : CoreField)
      (shape : Option (List Int)) (width : Option Int) :
      d.lookup "type" = some (.vStr "Array") →
      d.lookup "nullable" = some (.vBool n) →
      d.lookup "inner" = some (.vDict d2) →
      WellShaped d2 inner →
      OptIntListVal (d.lookup "shape") shape →
      OptIntVal (d.lookup "width") width →
      WellShaped d (.array n inner shape width)
  | struct (d : PyDict) (fd : PyDict) (n : Bool) (fs : CoreFields) :
      d.lookup "type" = some (.vStr "Struct") →
      d.lookup "nullable" = some (.vBool n) →
      d.lookup "fields" = some (.vDict fd) →
      WellShapedFields fd fs →
      WellShaped d (.struct n fs)

/-- Entry-wise well-shapedness of a struct `fields` dict. -/
inductive WellShapedFields : PyDict → CoreFields → Prop where
  | nil : WellShapedFields .nil .nil
  | cons (k : String) (dv : PyDict) (rest : PyDict) (f : CoreField) (fs : CoreFields) :
      WellShaped dv f →
      WellShapedFields rest fs →
      WellShapedFields (.cons k (.vDict dv) rest) (.cons k f fs)

end

/-! ## Theorems -/

theorem lookup_size_lt : ∀ {d : PyDict} {k : String} {v : PyVal},
    d.lookup k = some v → pyValSize v < pyDictSize d
  | .nil, k, v, h => by simp [PyDict.lookup] at h
  | .cons k0 v0 rest, k, v, h => by
    simp only [PyDict.lookup] at h
    by_cases hk : k0 = k
    · simp [hk] at h
      subst h
      simp [pyDictSize]
      omega
    · simp [hk] at h
      have := lookup_size_lt h
      simp [pyDictSize]
      omega

mutual

theorem pdBeq_refl : ∀ (t : PDType), pdBeq t t = true
  | .int8 | .int16 | .int32 | .int64 => rfl
  | .uint8 | .uint16 | .uint32 | .uint64 => rfl
  | .float32 | .float64 => rfl
  | .boolean | .string | .binary | .null => rfl
  | .date | .time | .categorical => rfl
  | .object | .unknown => rfl
  | .datetime u z => by simp [pdBeq]
  | .duration u => by simp [pdBeq]
  | .enum cs => by simp [pdBeq]
  | .list a => by simp [pdBeq, pdBeq_refl a]
  | .array a n => by simp [pdBeq, pdBeq_refl a]
  | .struct fs => by simp [pdBeq, pdFieldsBeq_refl fs]

theorem pdFieldsBeq_refl : ∀ (fs : PStructFields), pdFieldsBeq fs fs = true
  | .nil => rfl
  | .cons n t rest => by simp [pdFieldsBeq, pdBeq_refl t, pdFieldsBeq_refl rest]

end


theorem schemaLookup_isSome_of_mem : ∀ {s : PolarsSchema} {n : String} {d : PDType},
    (n, d) ∈ s → (schemaLookup s n).isSome = true := by
  intro s
  induction s with
  | nil => intro n d h; simp at h
  | cons e rest ih =>
    intro n d h
    rcases e with ⟨n0, d0⟩
    simp only [schemaLookup]
    rcases List.mem_cons.mp h with h0 | h0
    · rw [Prod.mk.injEq] at h0
      simp [h0.1]
    · by_cases hn : n0 = n
      · simp [hn]
      · simp only [hn, if_false]
        exact ih h0

theorem compare_schemas_lookup_eq {old new : PolarsSchema}
    (h : ∀ n, schemaLookup old n = schemaLookup new n) :
    compare_schemas old new = ⟨[], [], []⟩ := by
  have hA : new.filter (fun e => (schemaLookup old e.1).isNone) = [] := by
    rw [List.filter_eq_nil_iff]
    intro e he
    have hs := schemaLookup_isSome_of_mem (s := new) (n := e.1) (d := e.2) (by simpa using he)
    rw [h e.1]
    simp [Option.isNone_eq_false_iff, Option.isSome_iff_ne_none] at hs ⊢
    exact hs
  have hB : old.filter (fun e => (schemaLookup new e.1).isNone) = [] := by
    rw [List.filter_eq_nil_iff]
    intro e he
    have hs := schemaLookup_isSome_of_mem (s := old) (n := e.1) (d := e.2) (by simpa using he)
    rw [← h e.1]
    simp [Option.isNone_eq_false_iff, Option.isSome_iff_ne_none] at hs ⊢
    exact hs
  have hC : old.filterMap (fun e =>
      match schemaLookup old e.1, schemaLookup new e.1 with
      | some dOld, some dNew =>
        if pdBeq dOld dNew then none else some (ColumnChange.mk e.1 (some dOld) (some dNew))
      | _, _ => none) = [] := by
    rw [List.filterMap_eq_nil_iff]
    intro e he
    rw [← h e.1]
    rcases hx : schemaLookup old e.1 with _ | d
    · rfl
    · simp [pdBeq_refl]
  simp [compare_schemas, hA, hB, hC]

theorem sFieldLookup_isSome_of_mem : ∀ {s : List (String × SField)} {n : String} {f : SField},
    (n, f) ∈ s → (sFieldLookup s n).isSome = true := by
  intro s
  induction s with
  | nil => intro n f h; simp at h
  | cons e rest ih =>
    intro n f h
    rcases e with ⟨n0, f0⟩
    simp only [sFieldLookup]
    rcases List.mem_cons.mp h with h0 | h0
    · rw [Prod.mk.injEq] at h0
      simp [h0.1]
    · by_cases hn : n0 = n
      · simp [hn]
      · simp only [hn, if_false]
        exact ih h0

theorem sFieldLookup_mem : ∀ {s : List (String × SField)} {n : String} {f : SField},
    sFieldLookup s n = some f → (n, f) ∈ s := by
  intro s
  induction s with
  | nil => intro n f h; simp [sFieldLookup] at h
  | cons e rest ih =>
    intro n f h
    rcases e with ⟨n0, f0⟩
    simp only [sFieldLookup] at h
    by_cases hn : n0 = n
    · subst hn
      simp at h
      subst h
      exact List.mem_cons_self _ _
    · simp [hn] at h
      exact List.mem_cons_of_mem _ (ih h)

theorem register_changes_lookup_eq {prev cur : SSchema}
    (h : ∀ n, sFieldLookup prev.fields n = sFieldLookup cur.fields n) :
    register_changes prev cur = ⟨[], [], []⟩ := by
  have hA : cur.fields.filter (fun e => (sFieldLookup prev.fields e.1).isNone) = [] := by
    rw [List.filter_eq_nil_iff]
    intro e he
    have hs := sFieldLookup_isSome_of_mem (s := cur.fields) (n := e.1) (f := e.2)
      (by simpa using he)
    rw [h e.1]
    simp [Option.isNone_eq_false_iff, Option.isSome_iff_ne_none] at hs ⊢
    exact hs
  have hB : prev.fields.filter (fun e => (sFieldLookup cur.fields e.1).isNone) = [] := by
    rw [List.filter_eq_nil_iff]
    intro e he
    have hs := sFieldLookup_isSome_of_mem (s := prev.fields) (n := e.1) (f := e.2)
      (by simpa using he)
    rw [← h e.1]
    simp [Option.isNone_eq_false_iff, Option.isSome_iff_ne_none] at hs ⊢
    exact hs
  have hC : cur.fields.filterMap (fun e =>
      match sFieldLookup cur.fields e.1, sFieldLookup prev.fields e.1 with
      | some c, some old =>
        if are_fields_equal c old then none else some (SColumnChange.mk e.1 old c)
      | _, _ => none) = [] := by
    rw [List.filterMap_eq_nil_iff]
    intro e he
    rw [h e.1]
    rcases hx : sFieldLookup cur.fields e.1 with _ | f
    · rfl
    · simp [are_fields_equal]
  simp [register_changes, hA, hB, hC]

/-- C7: diffing a Schema against itself, and more generally diffing two
schemas with identical name-to-dtype (resp. name-to-field) content, yields
an empty change report regardless of the order in which columns were
inserted: this holds for `_compare_schemas` of `drifter/__init__.py` and
for the diff block of `schema.py register`. -/
theorem diff_empty_on_identical_content :
    (∀ s : PolarsSchema, compare_schemas s s = ⟨[], [], []⟩) ∧
    (∀ old new : PolarsSchema, (∀ n, schemaLookup old n = schemaLookup new n) →
      compare_schemas old new = ⟨[], [], []⟩) ∧
    (∀ prev cur : SSchema, (∀ n, sFieldLookup prev.fields n = sFieldLookup cur.fields n) →
      register_changes prev cur = ⟨[], [], []⟩) :=
  ⟨fun _ => compare_schemas_lookup_eq (fun _ => rfl),
   fun _ _ h => compare_schemas_lookup_eq h,
   fun _ _ h => register_changes_lookup_eq h⟩

/-- Witness for C7 at concrete inputs: the same two columns in the two
possible orders diff to the empty report, in both diff implementations. -/
theorem diff_empty_on_identical_content_witness :
    compare_schemas [("a", PDType.int64), ("b", PDType.string)]
      [("b", PDType.string), ("a", PDType.int64)] = ⟨[], [], []⟩ ∧
    register_changes
      ⟨"1.0", [("a", .prim "a" 7 .string), ("b", .numeric "b" 9 .int 64)]⟩
      ⟨"1.0", [("b", .numeric "b" 9 .int 64), ("a", .prim "a" 7 .string)]⟩ = ⟨[], [], []⟩ := by
  constructor
  · exact diff_empty_on_identical_content.2.1 _ _ (by
      intro n
      simp only [schemaLookup]
      split_ifs with h1 h2 <;>
        first | rfl | (exfalso; rw [← h1] at h2; exact absurd h2 (by decide)))
  · exact diff_empty_on_identical_content.2.2 _ _ (by
      intro n
      simp only [sFieldLookup]
      split_ifs with h1 h2 <;>
        first | rfl | (exfalso; rw [← h1] at h2; exact absurd h2 (by decide)))

theorem register_empty_history (df : PolarsSchema) (now : String) (store : Option FileBytes)
    (h : load_history store = .vList .nil) :
    (df = [] → register df now store = .ok (⟨[], [], []⟩, store)) ∧
    (df ≠ [] → register df now store = .ok
      (⟨df.map (fun e => ⟨e.1, none, some e.2⟩), [], []⟩,
       some (.jsonText (.vList (.cons (schema_version_entry df now) .nil))))) := by
  constructor
  · intro hdf
    subst hdf
    simp [register, h, truthy, SchemaChange.hasChanges, pure, Except.pure, Bind.bind,
      Except.bind, List.isEmpty]
  · intro hdf
    rcases df with _ | ⟨e, rest⟩
    · exact absurd rfl hdf
    · simp [register, h, truthy, SchemaChange.hasChanges, pyAppend, PyList.push, pure,
      Except.pure, Bind.bind, Except.bind, List.isEmpty]

/-- C3: when the loaded History is empty, `register` reports every current
column as added (with `removed` and `changed` empty) and persists exactly
one history entry — except when the current schema has zero columns, in
which case the result is empty and the store is left untouched. -/
theorem register_first_registration (df : PolarsSchema) (now : String) (store : Option FileBytes)
    (h : load_history store = .vList .nil) :
    (df = [] → register df now store = .ok (⟨[], [], []⟩, store)) ∧
    (df ≠ [] → register df now store = .ok
      (⟨df.map (fun e => ⟨e.1, none, some e.2⟩), [], []⟩,
       some (.jsonText (.vList (.cons (schema_version_entry df now) .nil))))) :=
  register_empty_history df now store h

/-- Witness for C3: a two-column first registration on an absent store, and
a zero-column first registration persisting nothing. -/
theorem register_first_registration_witness :
    load_history none = .vList .nil ∧
    register [("id", PDType.int64), ("name", PDType.string)] "2025-01-01T00:00:00+00:00" none
      = .ok (⟨[⟨"id", none, some .int64⟩, ⟨"name", none, some .string⟩], [], []⟩,
          some (.jsonText (.vList (.cons
            (schema_version_entry [("id", PDType.int64), ("name", PDType.string)]
              "2025-01-01T00:00:00+00:00") .nil)))) ∧
    register ([] : PolarsSchema) "2025-01-01T00:00:00+00:00" none = .ok (⟨[], [], []⟩, none) := by
  refine ⟨rfl, ?_, ?_⟩
  · exact (register_first_registration [("id", PDType.int64), ("name", PDType.string)]
      "2025-01-01T00:00:00+00:00" none rfl).2 (by simp)
  · exact (register_first_registration [] "2025-01-01T00:00:00+00:00" none rfl).1 rfl

/-- C4: registering a column mapping identical to the schema stored in the
latest persisted history entry returns an empty `SchemaChange` and performs
no write: the returned store is exactly the input store. -/
theorem register_noop (df old : PolarsSchema) (now s : String) (xs : PyList) (dEntry : PyDict)
    (hlast : xs.last = some (.vDict dEntry))
    (hdf : dEntry.lookup "dataframe" = some (.vStr s))
    (hdec : decodeDf s = .ok old)
    (heq : ∀ n, schemaLookup old n = schemaLookup df n) :
    register df now (some (.jsonText (.vList xs)))
      = .ok (⟨[], [], []⟩, some (.jsonText (.vList xs))) := by
  rcases xs with _ | ⟨x, rest⟩
  · simp [PyList.last] at hlast
  · have hcmp := compare_schemas_lookup_eq heq
    simp [register, load_history, truthy, pyIndexLast, hlast, pySubscript, hdf,
      decode_dataframe, hdec, hcmp, SchemaChange.hasChanges, pure, Except.pure,
      Bind.bind, Except.bind, List.isEmpty]

/-- Witness for C4: a store holding one entry whose serialized DataFrame
decodes to the registered schema; the second registration returns an empty
change and the identical store. -/
theorem register_noop_witness :
    decodeDf (encodeDf [("id", PDType.int64)]) = .ok [("id", PDType.int64)] ∧
    register [("id", PDType.int64)] "2025-01-02T00:00:00+00:00"
      (some (.jsonText (.vList (.cons (.vDict (.cons "dataframe"
        (.vStr (encodeDf [("id", PDType.int64)]))
        (.cons "timestamp" (.vStr "2025-01-01T00:00:00+00:00") .nil))) .nil))))
      = .ok (⟨[], [], []⟩,
        some (.jsonText (.vList (.cons (.vDict (.cons "dataframe"
          (.vStr (encodeDf [("id", PDType.int64)]))
          (.cons "timestamp" (.vStr "2025-01-01T00:00:00+00:00") .nil))) .nil)))) := by
  refine ⟨rfl, ?_⟩
  exact register_noop [("id", PDType.int64)] [("id", PDType.int64)]
    "2025-01-02T00:00:00+00:00" (encodeDf [("id", PDType.int64)])
    (.cons (.vDict (.cons "dataframe" (.vStr (encodeDf [("id", PDType.int64)]))
      (.cons "timestamp" (.vStr "2025-01-01T00:00:00+00:00") .nil))) .nil)
    (.cons "dataframe" (.vStr (encodeDf [("id", PDType.int64)]))
      (.cons "timestamp" (.vStr "2025-01-01T00:00:00+00:00") .nil))
    rfl rfl rfl (fun _ => rfl)

/-- C5 counterexample: an artifact whose bytes parse as the JSON document
`"x"` is structurally invalid, yet `_load_history` returns the parsed
string as-is (not an empty History), and the subsequent `register` call
raises `TypeError` instead of behaving like a first registration. -/
theorem load_history_invalid_structure_counterexample :
    load_history (some (.jsonText (.vStr "x"))) = .vStr "x" ∧
    PyVal.vStr "x" ≠ .vList .nil ∧
    register [("id", PDType.int64)] "2025-01-01T00:00:00+00:00"
      (some (.jsonText (.vStr "x"))) = .error .typeError :=
  ⟨rfl, by simp, rfl⟩

/-- C5 amended: for an artifact whose bytes fail to parse as JSON, loading
returns an empty History, `register` behaves exactly as on an absent
artifact, and (for a non-empty column mapping) overwrites the corrupted
bytes with a fresh valid one-version history. -/
theorem register_unparseable_recovery (df : PolarsSchema) (now : String) (hdf : df ≠ []) :
    load_history (some .invalid) = .vList .nil ∧
    register df now (some .invalid) = register df now none ∧
    register df now (some .invalid) = .ok
      (⟨df.map (fun e => ⟨e.1, none, some e.2⟩), [], []⟩,
       some (.jsonText (.vList (.cons (schema_version_entry df now) .nil)))) := by
  have h1 := (register_empty_history df now (some .invalid) rfl).2 hdf
  have h2 := (register_empty_history df now none rfl).2 hdf
  exact ⟨rfl, by rw [h1, h2], h1⟩

/-- Witness for C5 amended: one concrete unparseable artifact, recovered
by a one-column registration. -/
theorem register_unparseable_recovery_witness :
    register [("id", PDType.int64)] "2025-01-01T00:00:00+00:00" (some .invalid) = .ok
      (⟨[⟨"id", none, some .int64⟩], [], []⟩,
       some (.jsonText (.vList (.cons
         (schema_version_entry [("id", PDType.int64)] "2025-01-01T00:00:00+00:00") .nil)))) :=
  (register_unparseable_recovery [("id", PDType.int64)] "2025-01-01T00:00:00+00:00"
    (by simp)).2.2

/-- C6: evaluating `register` on a first registration shows the persisted
history entry is `{"dataframe": <base64-serialized DataFrame>,
"timestamp": <now>}` — its keys are `dataframe` and `timestamp`, and it
holds no `schema` key with the serialized name-to-Field mapping that the
spec (and the repository test `test_initial_registration`) prescribe. -/
theorem register_entry_shape_eval :
    register [("id", PDType.int64)] "2025-01-01T00:00:00+00:00" none
      = .ok (⟨[⟨"id", none, some .int64⟩], [], []⟩,
          some (.jsonText (.vList (.cons (.vDict (.cons "dataframe"
            (.vStr (encodeDf [("id", PDType.int64)]))
            (.cons "timestamp" (.vStr "2025-01-01T00:00:00+00:00") .nil))) .nil)))) ∧
    (PyDict.cons "dataframe" (.vStr (encodeDf [("id", PDType.int64)]))
      (.cons "timestamp" (.vStr "2025-01-01T00:00:00+00:00") .nil)).lookup "schema" = none ∧
    (PyDict.cons "dataframe" (.vStr (encodeDf [("id", PDType.int64)]))
      (.cons "timestamp" (.vStr "2025-01-01T00:00:00+00:00") .nil)).keys
      = ["dataframe", "timestamp"] :=
  ⟨rfl, rfl, rfl⟩

/-- C8: evaluating the adapter mapping shows a fixed-length
`pl.Array(Int32, 5)` column is mapped to a Sequence field with
`size = None` — the or-pattern `case pl.List() | pl.Array():` captures
Array dtypes, so the width is dropped — while a variable-length
`pl.List(Int32)` column is mapped to `size = None` as the claim states. -/
theorem map_array_dtype_eval :
    map_polars_dtypeTop (.array .int32 5) true
      = .ok (.sequence true (.integer true 32 true) none) ∧
    map_polars_dtypeTop (.list .int32) true
      = .ok (.sequence true (.integer true 32 true) none) :=
  ⟨rfl, rfl⟩

/-- C1 counterexample: two schemas binding column `a` to structurally
different fields (a String primitive versus a 64-bit signed integer) that
carry the same `type_hash`: the column is present in both and the fields
are not structurally equal, yet the diff block of `schema.py register`
reports no change, because `_are_fields_equal` compares the hashes only. -/
theorem hash_equality_counterexample :
    (register_changes ⟨"1.0", [("a", .prim "a" 0 .string)]⟩
      ⟨"1.0", [("a", .numeric "a" 0 .int 64)]⟩).changed = [] ∧
    sFieldLookup [("a", SField.prim "a" 0 .string)] "a" = some (.prim "a" 0 .string) ∧
    sFieldLookup [("a", SField.numeric "a" 0 .int 64)] "a" = some (.numeric "a" 0 .int 64) ∧
    ¬ SpecEq (.prim "a" 0 .string) (.numeric "a" 0 .int 64) := by
  refine ⟨rfl, rfl, rfl, ?_⟩
  intro h
  cases h

/-- C1 amended: the `changed` collection of the `schema.py register` diff
contains exactly the column names present in both schemas whose recorded
`type_hash` values differ — equality is decided by the hash alone, not by
the recursive structural comparison of spec section 3. -/
theorem register_changed_iff_hash_differs (prev cur : SSchema) (name : String) :
    (∃ c ∈ (register_changes prev cur).changed, c.field = name) ↔
    (∃ old c, sFieldLookup prev.fields name = some old ∧
      sFieldLookup cur.fields name = some c ∧ are_fields_equal c old = false) := by
  constructor
  · rintro ⟨c, hc, hname⟩
    simp only [register_changes, List.mem_filterMap] at hc
    rcases hc with ⟨e, he, hfe⟩
    rcases hcur : sFieldLookup cur.fields e.1 with _ | cf
    · simp [hcur] at hfe
    · rcases hprev : sFieldLookup prev.fields e.1 with _ | pf
      · simp [hcur, hprev] at hfe
      · simp only [hcur, hprev] at hfe
        by_cases heq : are_fields_equal cf pf
        · simp [heq] at hfe
        · simp only [heq, if_neg, Bool.false_eq_true, if_false, Option.some.injEq] at hfe
          subst hfe
          simp only at hname
          subst hname
          exact ⟨pf, cf, hprev, hcur, by simpa using heq⟩
  · rintro ⟨old, c, hp, hc, hne⟩
    have hmem := sFieldLookup_mem hc
    refine ⟨⟨name, old, c⟩, ?_, rfl⟩
    simp only [register_changes, List.mem_filterMap]
    exact ⟨(name, c), hmem, by simp [hc, hp, hne]⟩

theorem contains_of_mem {l : List String} {k : String} (h : k ∈ l) : l.contains k = true := by
  simp [List.elem_iff]
  exact h

theorem kwargsOk_true (req opt : List String) {d : PyDict}
    (hkeys : KeysAmong d ("type" :: req ++ opt))
    (hreq : ∀ k ∈ req, (d.lookup k).isSome = true) :
    kwargsOk d req opt = true := by
  unfold kwargsOk
  rw [Bool.and_eq_true]
  constructor
  · rw [List.all_eq_true]
    intro k hk
    have hmem := hkeys k hk
    simp only [List.mem_cons, List.mem_append] at hmem
    simp only [Bool.or_eq_true, decide_eq_true_eq]
    rcases hmem with (h | h) | h
    · exact Or.inl (Or.inl h)
    · exact Or.inl (Or.inr (contains_of_mem h))
    · exact Or.inr (contains_of_mem h)
  · rw [List.all_eq_true]
    intro k hk
    exact hreq k hk

theorem getOptIntList_of_val {d : PyDict} {k : String} {shape : Option (List Int)}
    (h : OptIntListVal (d.lookup k) shape) : getOptIntList d k = .ok shape := by
  unfold getOptIntList
  rcases hx : d.lookup k with _ | v
  · rw [hx] at h
    rcases shape with _ | ns
    · rfl
    · exact absurd h (by simp [OptIntListVal])
  · rw [hx] at h
    rcases v with _ | b | n | s | xs | dd <;> rcases shape with _ | ns <;>
      simp [OptIntListVal] at h ⊢ <;> simp [h]

theorem getOptInt_of_val {d : PyDict} {k : String} {width : Option Int}
    (h : OptIntVal (d.lookup k) width) : getOptInt d k = .ok width := by
  unfold getOptInt
  rcases hx : d.lookup k with _ | v
  · rw [hx] at h
    rcases width with _ | n
    · rfl
    · exact absurd h (by simp [OptIntVal])
  · rw [hx] at h
    rcases v with _ | b | n | s | xs | dd <;> rcases width with _ | m <;>
      simp [OptIntVal] at h ⊢ <;> simp [h]

mutual

theorem wellShaped_ok : ∀ {d : PyDict} {f : CoreField}, WellShaped d f →
    ∀ fuel, pyDictSize d < fuel → field_from_dict fuel (.vDict d) = .ok f
  | _, _, .float d n bits htype hkeys hn hb => fun fuel hfuel => by
    cases fuel with
    | zero => omega
    | succ fuel =>
      have hkw := kwargsOk_true ["nullable", "bits"] [] hkeys
        (by rintro k hk
            simp only [List.mem_cons, List.mem_singleton, List.not_mem_nil, or_false] at hk
            rcases hk with rfl | rfl <;> simp [hn, hb])
      simp [field_from_dict, htype, hkw, getBool, hn, getInt, hb, Bind.bind, Except.bind]
  | _, _, .integer d n bits signed htype hkeys hn hb hs => fun fuel hfuel => by
    cases fuel with
    | zero => omega
    | succ fuel =>
      have hkw := kwargsOk_true ["nullable", "bits", "signed"] [] hkeys
        (by rintro k hk
            simp only [List.mem_cons, List.mem_singleton, List.not_mem_nil, or_false] at hk
            rcases hk with rfl | rfl | rfl <;> simp [hn, hb, hs])
      simp [field_from_dict, htype, hkw, getBool, hn, getInt, hb, hs, Bind.bind, Except.bind]
  | _, _, .date d n htype hkeys hn => fun fuel hfuel => by
    cases fuel with
    | zero => omega
    | succ fuel =>
      have hkw := kwargsOk_true ["nullable"] [] hkeys
        (by rintro k hk
            simp only [List.mem_cons, List.mem_singleton, List.not_mem_nil, or_false] at hk
            rcases hk with rfl <;> simp [hn])
      simp [field_from_dict, htype, hkw, getBool, hn, Bind.bind, Except.bind]
  | _, _, .datetime d n htype hkeys hn => fun fuel hfuel => by
    cases fuel with
    | zero => omega
    | succ fuel =>
      have hkw := kwargsOk_true ["nullable"] [] hkeys
        (by rintro k hk
            simp only [List.mem_cons, List.mem_singleton, List.not_mem_nil, or_false] at hk
            rcases hk with rfl <;> simp [hn])
      simp [field_from_dict, htype, hkw, getBool, hn, Bind.bind, Except.bind]
  | _, _, .duration d n htype hkeys hn => fun fuel hfuel => by
    cases fuel with
    | zero => omega
    | succ fuel =>
      have hkw := kwargsOk_true ["nullable"] [] hkeys
        (by rintro k hk
            simp only [List.mem_cons, List.mem_singleton, List.not_mem_nil, or_false] at hk
            rcases hk with rfl <;> simp [hn])
      simp [field_from_dict, htype, hkw, getBool, hn, Bind.bind, Except.bind]
  | _, _, .time d n htype hkeys hn => fun fuel hfuel => by
    cases fuel with
    | zero => omega
    | succ fuel =>
      have hkw := kwargsOk_true ["nullable"] [] hkeys
        (by rintro k hk
            simp only [List.mem_cons, List.mem_singleton, List.not_mem_nil, or_false] at hk
            rcases hk with rfl <;> simp [hn])
      simp [field_from_dict, htype, hkw, getBool, hn, Bind.bind, Except.bind]
  | _, _, .string d n htype hkeys hn => fun fuel hfuel => by
    cases fuel with
    | zero => omega
    | succ fuel =>
      have hkw := kwargsOk_true ["nullable"] [] hkeys
        (by rintro k hk
            simp only [List.mem_cons, List.mem_singleton, List.not_mem_nil, or_false] at hk
            rcases hk with rfl <;> simp [hn])
      simp [field_from_dict, htype, hkw, getBool, hn, Bind.bind, Except.bind]
  | _, _, .binary d n htype hkeys hn => fun fuel hfuel => by
    cases fuel with
    | zero => omega
    | succ fuel =>
      have hkw := kwargsOk_true ["nullable"] [] hkeys
        (by rintro k hk
            simp only [List.mem_cons, List.mem_singleton, List.not_mem_nil, or_false] at hk
            rcases hk with rfl <;> simp [hn])
      simp [field_from_dict, htype, hkw, getBool, hn, Bind.bind, Except.bind]
  | _, _, .boolean d n htype hkeys hn => fun fuel hfuel => by
    cases fuel with
    | zero => omega
    | succ fuel =>
      have hkw := kwargsOk_true ["nullable"] [] hkeys
        (by rintro k hk
            simp only [List.mem_cons, List.mem_singleton, List.not_mem_nil, or_false] at hk
            rcases hk with rfl <;> simp [hn])
      simp [field_from_dict, htype, hkw, getBool, hn, Bind.bind, Except.bind]
  | _, _, .null d n htype hkeys hn => fun fuel hfuel => by
    cases fuel with
    | zero => omega
    | succ fuel =>
      have hkw := kwargsOk_true ["nullable"] [] hkeys
        (by rintro k hk
            simp only [List.mem_cons, List.mem_singleton, List.not_mem_nil, or_false] at hk
            rcases hk with rfl <;> simp [hn])
      simp [field_from_dict, htype, hkw, getBool, hn, Bind.bind, Except.bind]
  | _, _, .categoricalExplicit d n o htype hkeys hn hord => fun fuel hfuel => by
    cases fuel with
    | zero => omega
    | succ fuel =>
      have hkw := kwargsOk_true ["nullable"] ["ordered"] hkeys
        (by rintro k hk
            simp only [List.mem_cons, List.mem_singleton, List.not_mem_nil, or_false] at hk
            rcases hk with rfl <;> simp [hn])
      simp [field_from_dict, htype, hkw, getBool, hn, hord, Bind.bind, Except.bind]
  | _, _, .categoricalDefault d n htype hkeys hn hord => fun fuel hfuel => by
    cases fuel with
    | zero => omega
    | succ fuel =>
      have hkw := kwargsOk_true ["nullable"] ["ordered"] hkeys
        (by rintro k hk
            simp only [List.mem_cons, List.mem_singleton, List.not_mem_nil, or_false] at hk
            rcases hk with rfl <;> simp [hn])
      simp [field_from_dict, htype, hkw, getBool, hn, hord, Bind.bind, Except.bind]
  | _, _, .enum d n xs vs htype hkeys hn hvar hstr => fun fuel hfuel => by
    cases fuel with
    | zero => omega
    | succ fuel =>
      have hkw := kwargsOk_true ["nullable", "variants"] [] hkeys
        (by rintro k hk
            simp only [List.mem_cons, List.mem_singleton, List.not_mem_nil, or_false] at hk
            rcases hk with rfl | rfl <;> simp [hn, hvar])
      simp [field_from_dict, htype, hkw, getBool, hn, getStrList, hvar, hstr,
        Bind.bind, Except.bind]
  | _, _, .list d d2 n inner htype hn hinner hws => fun fuel hfuel => by
    cases fuel with
    | zero => omega
    | succ fuel =>
      have hsz := lookup_size_lt hinner
      simp only [pyValSize] at hsz
      have hrec := wellShaped_ok hws fuel (by omega)
      simp [field_from_dict, htype, getBool, hn, getKey, hinner, hrec, Bind.bind, Except.bind]
  | _, _, .array d d2 n inner shape width htype hn hinner hws hshape hwidth =>
    fun fuel hfuel => by
    cases fuel with
    | zero => omega
    | succ fuel =>
      have hsz := lookup_size_lt hinner
      simp only [pyValSize] at hsz
      have hrec := wellShaped_ok hws fuel (by omega)
      simp [field_from_dict, htype, getBool, hn, getKey, hinner, hrec,
        getOptIntList_of_val hshape, getOptInt_of_val hwidth, Bind.bind, Except.bind]
  | _, _, .struct d fd n fs htype hn hfields hws => fun fuel hfuel => by
    cases fuel with
    | zero => omega
    | succ fuel =>
      have hsz := lookup_size_lt hfields
      simp only [pyValSize] at hsz
      have hrec := wellShapedFields_ok hws fuel (by omega)
      simp [field_from_dict, htype, getBool, hn, getKey, hfields, hrec, Bind.bind, Except.bind]

theorem wellShapedFields_ok : ∀ {fd : PyDict} {fs : CoreFields}, WellShapedFields fd fs →
    ∀ fuel, pyDictSize fd < fuel → fields_from_dict fuel fd = .ok fs
  | _, _, .nil => fun fuel hfuel => by
    cases fuel with
    | zero => omega
    | succ fuel => simp [fields_from_dict]
  | _, _, .cons k dv rest f fs hws hrest => fun fuel hfuel => by
    cases fuel with
    | zero => omega
    | succ fuel =>
      simp only [pyDictSize, pyValSize] at hfuel
      have h1 := wellShaped_ok hws fuel (by omega)
      have h2 := wellShapedFields_ok hrest fuel (by omega)
      simp [fields_from_dict, h1, h2, Bind.bind, Except.bind]

end

theorem asIntList_pyIntList : ∀ xs : List Int, asIntList (pyIntList xs) = some xs
  | [] => rfl
  | x :: rest => by simp [pyIntList, asIntList, asIntList_pyIntList rest]

theorem asStrList_pyStrList : ∀ xs : List String, asStrList (pyStrList xs) = some xs
  | [] => rfl
  | x :: rest => by simp [pyStrList, asStrList, asStrList_pyStrList rest]

theorem optIntListVal_serialize (shape : Option (List Int)) :
    OptIntListVal (some (pyOptIntList shape)) shape := by
  cases shape <;> simp [pyOptIntList, OptIntListVal, asIntList_pyIntList]

theorem optIntVal_serialize (w : Option Int) : OptIntVal (some (pyOptInt w)) w := by
  cases w <;> simp [pyOptInt, OptIntVal]

mutual

theorem serialize_wellShaped : ∀ (f : CoreField), isConcrete f = true →
    WellShaped (fieldEntries f) f
  | .base n, h => by simp [isConcrete] at h
  | .float n bits, _ =>
    .float _ n bits rfl
      (by intro k hk
          simp [PyDict.keys, fieldEntries] at hk
          rcases hk with rfl | rfl | rfl <;> simp)
      rfl rfl
  | .integer n bits signed, _ =>
    .integer _ n bits signed rfl
      (by intro k hk
          simp [PyDict.keys, fieldEntries] at hk
          rcases hk with rfl | rfl | rfl | rfl <;> simp)
      rfl rfl rfl
  | .date n, _ =>
    .date _ n rfl
      (by intro k hk
          simp [PyDict.keys, fieldEntries] at hk
          rcases hk with rfl | rfl <;> simp)
      rfl
  | .datetime n, _ =>
    .datetime _ n rfl
      (by intro k hk
          simp [PyDict.keys, fieldEntries] at hk
          rcases hk with rfl | rfl <;> simp)
      rfl
  | .duration n, _ =>
    .duration _ n rfl
      (by intro k hk
          simp [PyDict.keys, fieldEntries] at hk
          rcases hk with rfl | rfl <;> simp)
      rfl
  | .time n, _ =>
    .time _ n rfl
      (by intro k hk
          simp [PyDict.keys, fieldEntries] at hk
          rcases hk with rfl | rfl <;> simp)
      rfl
  | .string n, _ =>
    .string _ n rfl
      (by intro k hk
          simp [PyDict.keys, fieldEntries] at hk
          rcases hk with rfl | rfl <;> simp)
      rfl
  | .binary n, _ =>
    .binary _ n rfl
      (by intro k hk
          simp [PyDict.keys, fieldEntries] at hk
          rcases hk with rfl | rfl <;> simp)
      rfl
  | .boolean n, _ =>
    .boolean _ n rfl
      (by intro k hk
          simp [PyDict.keys, fieldEntries] at hk
          rcases hk with rfl | rfl <;> simp)
      rfl
  | .null n, _ =>
    .null _ n rfl
      (by intro k hk
          simp [PyDict.keys, fieldEntries] at hk
          rcases hk with rfl | rfl <;> simp)
      rfl
  | .categorical n o, _ =>
    .categoricalExplicit _ n o rfl
      (by intro k hk
          simp [PyDict.keys, fieldEntries] at hk
          rcases hk with rfl | rfl | rfl <;> simp)
      rfl rfl
  | .enum n vs, _ =>
    .enum _ n (pyStrList vs) vs rfl
      (by intro k hk
          simp [PyDict.keys, fieldEntries] at hk
          rcases hk with rfl | rfl | rfl <;> simp)
      rfl rfl (asStrList_pyStrList vs)
  | .list n inner, h =>
    .list _ (fieldEntries inner) n inner rfl rfl rfl
      (serialize_wellShaped inner (by simpa [isConcrete] using h))
  | .array n inner shape width, h =>
    .array _ (fieldEntries inner) n inner shape width rfl rfl rfl
      (serialize_wellShaped inner (by simpa [isConcrete] using h))
      (optIntListVal_serialize shape) (optIntVal_serialize width)
  | .struct n fs, h =>
    .struct _ (serializeFields fs) n fs rfl rfl rfl
      (serialize_wellShapedFields fs (by simpa [isConcrete] using h))

theorem serialize_wellShapedFields : ∀ (fs : CoreFields), isConcreteFields fs = true →
    WellShapedFields (serializeFields fs) fs
  | .nil, _ => .nil
  | .cons k f rest, h => by
    simp only [isConcreteFields, Bool.and_eq_true] at h
    exact .cons k (fieldEntries f) (serializeFields rest) f rest
      (serialize_wellShaped f h.1) (serialize_wellShapedFields rest h.2)

end

/-- C2 amended: deserializing the serialized form of a Field yields the
same Field, for every Field built from the 15 concrete tagged variants
(every nesting of Array, List, Struct, Enum and the leaf variants); the
bare base-class `Field` is excluded, since its tag `"Field"` is not in
`FIELD_CLASSES` and its round trip fails (see the counterexample). -/
theorem field_roundtrip (f : CoreField) (h : isConcrete f = true) :
    field_from_dictTop (serializeField f) = .ok f := by
  have hws := serialize_wellShaped f h
  simp only [field_from_dictTop, serializeField, pyValSize]
  exact wellShaped_ok hws _ (by omega)

/-- C2 counterexample: the bare base class `Field(nullable=True)` is a
constructible Field; `asdict` serializes it with tag `"Field"`, and
`field_from_dict` then raises `ValueError("Unknown field type: Field")`
instead of returning the field, so the round-trip law fails for it. -/
theorem field_roundtrip_base_counterexample :
    field_from_dictTop (serializeField (.base true)) = .error (.unknownFieldType (.vStr "Field")) :=
  rfl

/-- Witness for C2: a concrete nested field round-trips. -/
theorem field_roundtrip_witness :
    isConcrete (.list true (.integer false 8 false)) = true ∧
    field_from_dictTop (serializeField (.list true (.integer false 8 false)))
      = .ok (.list true (.integer false 8 false)) :=
  ⟨rfl, field_roundtrip (.list true (.integer false 8 false)) rfl⟩

/-- C9: Field deserialization (a) fails with the unknown-field-type error
for every input dict whose discriminant tag is not one of the 15 known
variant tags, whatever the rest of the dict holds, and (b) succeeds and
returns the described variant for every well-shaped input dict. -/
theorem field_from_dict_dispatch :
    (∀ (d : PyDict) (tag : String), d.lookup "type" = some (.vStr tag) →
      tag ∉ ["Array", "Binary", "Boolean", "Categorical", "Date", "Datetime", "Duration",
        "Enum", "Float", "Integer", "List", "Null", "String", "Struct", "Time"] →
      field_from_dictTop (.vDict d) = .error (.unknownFieldType (.vStr tag))) ∧
    (∀ (d : PyDict) (f : CoreField), WellShaped d f → field_from_dictTop (.vDict d) = .ok f) := by
  constructor
  · intro d tag htype hunk
    simp only [List.mem_cons, List.not_mem_nil, or_false, not_or] at hunk
    obtain ⟨h1, h2, h3, h4, h5, h6, h7, h8, h9, h10, h11, h12, h13, h14, h15⟩ := hunk
    simp only [field_from_dictTop, pyValSize]
    simp [field_from_dict, htype, h1, h2, h3, h4, h5, h6, h7, h8, h9, h10, h11, h12, h13,
      h14, h15]
  · intro d f hws
    simp only [field_from_dictTop, pyValSize]
    exact wellShaped_ok hws _ (by omega)

/-- Witness for C9: a concrete unknown tag fails; a concrete well-shaped
Date dict (keys in the reverse of serialization order) succeeds. -/
theorem field_from_dict_dispatch_witness :
    field_from_dictTop (.vDict (.cons "type" (.vStr "Wibble") (.cons "nullable" (.vBool true) .nil)))
      = .error (.unknownFieldType (.vStr "Wibble")) ∧
    field_from_dictTop (.vDict (.cons "nullable" (.vBool true) (.cons "type" (.vStr "Date") .nil)))
      = .ok (.date true) := by
  constructor
  · exact field_from_dict_dispatch.1 _ "Wibble" rfl (by decide)
  · exact field_from_dict_dispatch.2 _ _
      (.date _ true rfl
        (by intro k hk
            simp [PyDict.keys] at hk
            rcases hk with rfl | rfl <;> simp)
        rfl)
